import Mathlib

/-!
Verification of the bindep rule engine: Debian-style version comparison,
manifest parsing, profile-based rule activation, installed-package checking,
and the command-line driver. The core module is embedded from the
specification of the rule engine; the driver is embedded from main.py.
-/

/-- Three-way comparison of natural numbers, written explicitly so that it
reduces by kernel evaluation. -/
def cmpNat (m n : Nat) : Ordering :=
  if m < n then .lt else if n < m then .gt else .eq

/-- Modelled from the spec: the character ordinal used inside non-digit runs
of the missing VersionComparator (bindep/depends.py). Tilde sorts lowest,
alphabetic characters sort by code point, and any non-alphabetic non-tilde
character sorts above every letter. -/
def charKey (c : Char) : Nat :=
  if c = '~' then 0
  else if c.isAlpha then 1 + c.toNat
  else 1114113 + c.toNat

/-- Modelled from the spec: comparison of two characters of a non-digit run. -/
def cmpChar (a b : Char) : Ordering :=
  cmpNat (charKey a) (charKey b)

/-- Modelled from the spec: character-by-character comparison of two
corresponding non-digit runs; the end of a run sorts below every character
except the tilde, which sorts below the end. -/
def cmpCharRun : List Char → List Char → Ordering
  | [], [] => .eq
  | [], b :: _ => if b = '~' then .gt else .lt
  | a :: _, [] => if a = '~' then .lt else .gt
  | a :: as, b :: bs =>
    match cmpChar a b with
    | .eq => cmpCharRun as bs
    | o => o

/-- A segment of a version part: one non-digit run followed by one digit run,
the digit run already read as an unsigned integer. -/
abbrev Seg := List Char × Nat

/-- Numeric value of a digit run (leading zeros ignored). -/
def natOfDigits (l : List Char) : Nat :=
  l.foldl (fun acc c => acc * 10 + (c.toNat - 48)) 0

/-- Modelled from the spec: comparison of two corresponding segments — the
non-digit runs compare first, then the digit runs compare numerically. -/
def cmpSeg (a b : Seg) : Ordering :=
  match cmpCharRun a.1 b.1 with
  | .eq => cmpNat a.2 b.2
  | o => o

/-- The segment a missing position stands for: empty run, zero number. -/
def emptySeg : Seg := ([], 0)

/-- Comparison of an exhausted left list against remaining right segments;
each missing left segment is treated as empty. -/
def cmpSegsEmpty : List Seg → Ordering
  | [] => .eq
  | b :: bs =>
    match cmpSeg emptySeg b with
    | .eq => cmpSegsEmpty bs
    | o => o

/-- Modelled from the spec: pairwise comparison of segment lists; when one
list is exhausted first the missing segments are treated as empty. -/
def cmpSegs : List Seg → List Seg → Ordering
  | [], bs => cmpSegsEmpty bs
  | a :: as, bs =>
    match cmpSeg a (bs.headD emptySeg) with
    | .eq => cmpSegs as bs.tail
    | o => o

/-- Modelled from the spec: split a version part into alternating runs of
non-digit and digit characters. The fuel argument bounds the recursion; one
unit of fuel is spent per segment and every segment taken from a non-empty
list consumes at least one character, so fuel equal to the length suffices. -/
def toSegsAux : Nat → List Char → List Seg
  | 0, _ => []
  | _, [] => []
  | fuel + 1, l =>
    let a := l.takeWhile (fun c => !c.isDigit)
    let r1 := l.dropWhile (fun c => !c.isDigit)
    let d := r1.takeWhile (fun c => c.isDigit)
    let r2 := r1.dropWhile (fun c => c.isDigit)
    (a, natOfDigits d) :: toSegsAux fuel r2

/-- Segment decomposition of a version part. -/
def toSegs (l : List Char) : List Seg := toSegsAux l.length l

/-- Modelled from the spec: three-way comparison of one tier (epoch, upstream
or revision) of two version strings. -/
def cmpPart (a b : List Char) : Ordering := cmpSegs (toSegs a) (toSegs b)

/-- Modelled from the spec: the epoch split — the portion before the first
colon is the epoch, defaulting to "0" when no colon is present; the second
component is the remainder of the version. -/
def epochSplit (l : List Char) : List Char × List Char :=
  if l.contains ':' then
    (l.takeWhile (fun c => c ≠ ':'), (l.dropWhile (fun c => c ≠ ':')).tail)
  else (['0'], l)

/-- Modelled from the spec: the revision split — the portion after the last
dash is the Debian revision, defaulting to empty when no dash is present;
the first component is the upstream version. -/
def revSplit (l : List Char) : List Char × List Char :=
  if l.contains '-' then
    (((l.reverse.dropWhile (fun c => c ≠ '-')).tail).reverse,
     (l.reverse.takeWhile (fun c => c ≠ '-')).reverse)
  else (l, [])

/-- First nonzero result of the three ordering tiers. -/
def ord3 (a b c : Ordering) : Ordering :=
  match a with
  | .eq =>
    match b with
    | .eq => c
    | o => o
  | o => o

/-- Modelled from the spec: full Debian-style three-way comparison of two
version strings — epoch tier first, then upstream, then revision. -/
def debCmp (va vb : String) : Ordering :=
  ord3
    (cmpPart (epochSplit va.data).1 (epochSplit vb.data).1)
    (cmpPart (revSplit (epochSplit va.data).2).1 (revSplit (epochSplit vb.data).2).1)
    (cmpPart (revSplit (epochSplit va.data).2).2 (revSplit (epochSplit vb.data).2).2)

/-- Map a relational operator token over a three-way comparison result. -/
def opHolds (op : String) (o : Ordering) : Bool :=
  if op = "<" then o == .lt
  else if op = "<=" then !(o == .gt)
  else if op = "==" then o == .eq
  else if op = "!=" then !(o == .eq)
  else if op = ">" then o == .gt
  else if op = ">=" then !(o == .lt)
  else false

/-- Modelled from the spec: the missing function bindep.depends._eval —
whether version va stands in relation op to version vb under Debian
ordering. -/
def _eval (va : String) (op : String) (vb : String) : Bool :=
  opHolds op (debCmp va vb)

/-- A selector attached to a rule: a polarity and a profile name. -/
abbrev Selector := Bool × String

/-- A version constraint: an operator token and a version string. -/
abbrev Constraint := String × String

/-- A manifest rule: package name, selectors, constraints (source order). -/
abbrev Rule := String × List Selector × List Constraint

/-- Whitespace inside a manifest line. -/
def wsChar (c : Char) : Bool := c = ' ' || c = '\t' || c = '\r'

/-- Split a character list at every separator recognised by the predicate;
separators are dropped and the pieces between them are kept, so n separators
yield n + 1 pieces (some possibly empty). -/
def splitBy (p : Char → Bool) : List Char → List (List Char)
  | [] => [[]]
  | c :: cs =>
    match splitBy p cs with
    | [] => if p c then [[], []] else [[c]]
    | r :: rs => if p c then [] :: r :: rs else (c :: r) :: rs

/-- Non-empty whitespace-delimited tokens of a character list. -/
def wsTokens (l : List Char) : List (List Char) :=
  (splitBy (fun c => wsChar c || c = '\n') l).filter (fun t => !t.isEmpty)

/-- Modelled from the spec: one selector token of the missing RuleParser —
a leading bang makes the selector negative. -/
def parseSelectorTok (t : List Char) : Selector :=
  match t with
  | '!' :: rest => (false, String.mk rest)
  | _ => (true, String.mk t)

/-- Modelled from the spec: one constraint token — a recognised operator
token followed by the version string; two-character operators take
precedence over one-character ones, anything else is a parse error. -/
def parseConstraint (t : List Char) : Except String Constraint :=
  match t with
  | '<' :: '=' :: v => .ok ("<=", String.mk v)
  | '!' :: '=' :: v => .ok ("!=", String.mk v)
  | '=' :: '=' :: v => .ok ("==", String.mk v)
  | '>' :: '=' :: v => .ok (">=", String.mk v)
  | '<' :: v => .ok ("<", String.mk v)
  | '>' :: v => .ok (">", String.mk v)
  | _ => .error "unknown operator"

/-- Strip leading and trailing whitespace. -/
def stripWS (l : List Char) : List Char :=
  ((l.dropWhile wsChar).reverse.dropWhile wsChar).reverse

/-- Collect Except results, stopping at the first error. -/
def mapExcept {α β : Type} (f : α → Except String β) : List α → Except String (List β)
  | [] => .ok []
  | a :: as =>
    match f a with
    | .error e => .error e
    | .ok b =>
      match mapExcept f as with
      | .error e => .error e
      | .ok bs => .ok (b :: bs)

/-- Modelled from the spec: the comma-separated constraint clause of a line;
an empty clause yields no constraints. -/
def parseConstraints (l : List Char) : Except String (List Constraint) :=
  if l.isEmpty then .ok []
  else mapExcept parseConstraint ((splitBy (fun c => c = ',') l).map stripWS)

/-- Modelled from the spec: one manifest line of the missing RuleParser.
Blank lines and comment lines yield no rule; otherwise the first
whitespace-delimited token is the package name, an optional bracketed
selector clause follows, and the rest is the constraint clause. An opening
bracket without a closing one is a parse error. -/
def parseLine (line : List Char) : Except String (Option Rule) :=
  match line.dropWhile wsChar with
  | [] => .ok none
  | '#' :: _ => .ok none
  | l =>
    let name := String.mk (l.takeWhile (fun c => !wsChar c))
    let rest := (l.dropWhile (fun c => !wsChar c)).dropWhile wsChar
    match rest with
    | '[' :: inner =>
      if inner.contains ']' then
        let sels := ((splitBy wsChar (inner.takeWhile (fun c => c ≠ ']'))).filter
          (fun t => !t.isEmpty)).map parseSelectorTok
        let afterSel := ((inner.dropWhile (fun c => c ≠ ']')).tail).dropWhile wsChar
        (parseConstraints afterSel).map (fun cs => some (name, sels, cs))
      else .error "unbalanced selector bracket"
    | _ => (parseConstraints rest).map (fun cs => some (name, [], cs))

/-- Modelled from the spec: the missing RuleParser of bindep/depends.py —
manifest text to the ordered rule list, failing on the first malformed
line and producing no rules at all in that case. -/
def parse (text : String) : Except String (List Rule) :=
  (mapExcept parseLine (splitBy (fun c => c = '\n') text.data)).map
    (fun l => l.filterMap id)

/-- Modelled from the spec: all profile names referenced by any selector of
the manifest, in order of appearance, for discovery listing. -/
def profileNames (rules : List Rule) : List String :=
  rules.flatMap (fun r => r.2.1.map (fun s => s.2))

/-- Modelled from the spec: the missing Depends.active_rules — keep exactly
the rules all of whose selectors agree with the given profile list. -/
def active_rules (rules : List Rule) (profiles : List String) : List Rule :=
  rules.filter (fun r => r.2.1.all (fun s => s.1 == profiles.contains s.2))

/-- A categorized check error: one aggregated missing-package report or one
aggregated bad-version report. -/
inductive CheckError where
  | missing (pkgs : List String)
  | badversion (entries : List (String × String × String))
deriving DecidableEq, Repr

/-- Modelled from the spec: the rule-by-rule accumulation of the missing
Depends.check_rules — absent packages in first-encountered order, and one
(package, constraint-as-string, installed-version) triple for each failing
constraint of each installed package, in order. -/
def checkAccum (pkgVer : String → Option String) :
    List Rule → List String × List (String × String × String)
  | [] => ([], [])
  | r :: rs =>
    let rest := checkAccum pkgVer rs
    match pkgVer r.1 with
    | none => (r.1 :: rest.1, rest.2)
    | some v =>
      (rest.1,
       (r.2.2.filterMap
         (fun c => if _eval v c.1 c.2 then none else some (r.1, c.1 ++ c.2, v))) ++ rest.2)

/-- Modelled from the spec: the missing Depends.check_rules — at most one
aggregated missing error followed by at most one aggregated badversion
error. -/
def check_rules (pkgVer : String → Option String) (rules : List Rule) :
    List CheckError :=
  (if (checkAccum pkgVer rules).1.isEmpty then []
   else [CheckError.missing (checkAccum pkgVer rules).1])
  ++ (if (checkAccum pkgVer rules).2.isEmpty then []
      else [CheckError.badversion (checkAccum pkgVer rules).2])

/-- Declarative list of the packages the platform reports absent, in rule
order. -/
def missingPkgs (pkgVer : String → Option String) (rules : List Rule) :
    List String :=
  rules.filterMap (fun r =>
    match pkgVer r.1 with
    | none => some r.1
    | some _ => none)

/-- Declarative list of the failing-constraint triples, in rule order. -/
def badEntries (pkgVer : String → Option String) (rules : List Rule) :
    List (String × String × String) :=
  rules.flatMap (fun r =>
    match pkgVer r.1 with
    | none => []
    | some v =>
      r.2.2.filterMap
        (fun c => if _eval v c.1 c.2 then none else some (r.1, c.1 ++ c.2, v)))

/-- Modelled from the spec: the pure part of the missing
Dpkg.get_pkg_version — the dpkg-query invocation is abstracted as its
outcome (none for a query failure on an unknown package, otherwise the
produced output line). The version is returned only when the status words
of the record are exactly "install ok installed". -/
def Dpkg.get_pkg_version (queryResult : Option String) : Option String :=
  match queryResult with
  | none => none
  | some out =>
    match wsTokens out.data with
    | [_, s1, s2, s3, v] =>
      if s1 = "install".data ∧ s2 = "ok".data ∧ s3 = "installed".data then
        some (String.mk v)
      else none
    | _ => none

/-- The command-line driver, embedded from main.py. The file read, option
parsing and the platform collaborator are abstracted as arguments: the
manifest file content (none when the file cannot be read), the --profiles
flag, the positional arguments, the platform profile list and the installed
version lookup. The result is the return value of main, or none when
Depends construction raises a parse error and main does not return. -/
def mainModel (file : Option String) (profilesFlag : Bool) (args : List String)
    (platformProfiles : List String) (pkgVer : String → Option String) :
    Option Nat :=
  match file with
  | none => some 1
  | some content =>
    match parse content with
    | .error _ => none
    | .ok rules =>
      if profilesFlag then some 0
      else
        let profiles := (if args.isEmpty then ["default"] else args) ++ platformProfiles
        if (check_rules pkgVer (active_rules rules profiles)).isEmpty then some 0
        else some 1

example : _eval "3.5-ubuntu" "<" "4" = true := by decide
example : _eval "4" "<" "3.5-ubuntu" = false := by decide
example : _eval "1:2" "<" "2:1" = true := by decide
example : _eval "1~~" "<" "1~~a" = true := by decide
example : _eval "1~~a" "<" "1~" = true := by decide
example : _eval "1~" "<" "1" = true := by decide
example : _eval "1" "<" "1a" = true := by decide
example : _eval "1-a~~" "<" "1-a~~a" = true := by decide
example : _eval "1-a~~a" "<" "1-a~" = true := by decide
example : _eval "1-a~" "<" "1-a" = true := by decide
example : _eval "1-a" "<" "1-aa" = true := by decide
example : _eval "1a" "<" "1aa" = true := by decide
example : _eval "1a-a" "<" "1a-aa" = true := by decide
example : _eval "1:0" ">" "9999" = true := by decide
example : _eval "3.5-ubuntu" "==" "3.5-ubuntu" = true := by decide
example : _eval "3.5-ubuntu" "!=" "3.5-ubuntu" = false := by decide
example : _eval "4" ">=" "3.5-ubuntu" = true := by decide

example : parse "foo [!bar baz quux]\n" =
    .ok [("foo", [(false, "bar"), (true, "baz"), (true, "quux")], [])] := rfl
example : parse "foo <=1,!=2\n" =
    .ok [("foo", [], [("<=", "1"), ("!=", "2")])] := rfl
example : parse "foo [!off]\n" = .ok [("foo", [(false, "off")], [])] := rfl
example : parse "" = .ok [] := rfl
example : parse "foo =1\n" = .error "unknown operator" := rfl
example : parse "foo [bar\n" = .error "unbalanced selector bracket" := rfl
example : active_rules [("foo", [(false, "off")], [])] ["on", "off"] = [] := rfl
example : active_rules [("foo", [(false, "off")], [])] ["on"] =
    [("foo", [(false, "off")], [])] := rfl
example : active_rules [("foo", [], [])] ["default"] = [("foo", [], [])] := rfl
example : check_rules (fun _ => none) [("foo", [], [])] =
    [CheckError.missing ["foo"]] := rfl
example : check_rules (fun _ => some "123") [("foo", [], [])] = [] := rfl
example : check_rules (fun _ => some "123") [("foo", [], [("!=", "123")])] =
    [CheckError.badversion [("foo", "!=123", "123")]] := rfl
example : Dpkg.get_pkg_version (some "foo install ok installed 4.0.0-0ubuntu1\n") =
    some "4.0.0-0ubuntu1" := rfl
example : Dpkg.get_pkg_version
    (some "foo deinstall ok config-files 4.0.0-0ubuntu1\n") = none := rfl
example : Dpkg.get_pkg_version none = none := rfl
example : mainModel none false [] [] (fun _ => none) = some 1 := rfl
example : mainModel (some "foo\nbar [something]\n") false [] []
    (fun _ => none) = some 1 := rfl
example : mainModel (some "foo\n") true [] [] (fun _ => none) = some 0 := rfl

theorem cmpNat_self (n : Nat) : cmpNat n n = .eq := by
  simp [cmpNat]

theorem cmpNat_lt_of_lt {m n : Nat} (h : m < n) : cmpNat m n = .lt := by
  simp [cmpNat, h]

theorem cmpChar_self (c : Char) : cmpChar c c = .eq := cmpNat_self _

theorem cmpCharRun_self : ∀ l : List Char, cmpCharRun l l = .eq
  | [] => rfl
  | c :: cs => by
    simp [cmpCharRun, cmpChar_self, cmpCharRun_self cs]

theorem cmpSeg_self (s : Seg) : cmpSeg s s = .eq := by
  simp [cmpSeg, cmpCharRun_self, cmpNat_self]

theorem cmpSegs_self : ∀ s : List Seg, cmpSegs s s = .eq
  | [] => rfl
  | a :: as => by
    simp [cmpSegs, cmpSeg_self, cmpSegs_self as]

theorem debCmp_self (v : String) : debCmp v v = .eq := by
  simp [debCmp, cmpPart, cmpSegs_self, ord3]

theorem cmpNat_swap (m n : Nat) : cmpNat n m = (cmpNat m n).swap := by
  rcases Nat.lt_trichotomy m n with h | h | h
  · simp [cmpNat, h, Nat.lt_asymm h, Ordering.swap]
  · subst h
    simp [cmpNat, Nat.lt_irrefl, Ordering.swap]
  · simp [cmpNat, h, Nat.lt_asymm h, Ordering.swap]

theorem cmpChar_swap (a b : Char) : cmpChar b a = (cmpChar a b).swap :=
  cmpNat_swap (charKey a) (charKey b)

theorem cmpCharRun_swap : ∀ a b : List Char, cmpCharRun b a = (cmpCharRun a b).swap
  | [], [] => rfl
  | [], b :: bs => by
    by_cases h : b = '~' <;> simp [cmpCharRun, h, Ordering.swap]
  | a :: as, [] => by
    by_cases h : a = '~' <;> simp [cmpCharRun, h, Ordering.swap]
  | a :: as, b :: bs => by
    have hs := cmpChar_swap a b
    cases hab : cmpChar a b <;>
      rw [hab] at hs <;>
      simp [cmpCharRun, hab, hs, Ordering.swap, cmpCharRun_swap as bs]

theorem cmpSeg_swap (a b : Seg) : cmpSeg b a = (cmpSeg a b).swap := by
  have hs := cmpCharRun_swap a.1 b.1
  cases h : cmpCharRun a.1 b.1 <;>
    rw [h] at hs <;>
    simp [cmpSeg, h, hs, Ordering.swap, cmpNat_swap a.2 b.2]

theorem cmpSegs_nil (as : List Seg) : cmpSegs as [] = (cmpSegsEmpty as).swap := by
  induction as with
  | nil => rfl
  | cons a as ih =>
    have hs := cmpSeg_swap emptySeg a
    cases h : cmpSeg emptySeg a <;>
      rw [h] at hs <;>
      simp [cmpSegs, cmpSegsEmpty, h, hs, Ordering.swap, ih]

theorem cmpSegs_swap : ∀ a b : List Seg, cmpSegs b a = (cmpSegs a b).swap
  | [], bs => cmpSegs_nil bs
  | a :: as, [] => by
    have h := cmpSegs_nil (a :: as)
    rw [h, Ordering.swap_swap]
    rfl
  | a :: as, b :: bs => by
    have hs := cmpSeg_swap a b
    cases h : cmpSeg a b <;>
      rw [h] at hs <;>
      simp [cmpSegs, h, hs, Ordering.swap, cmpSegs_swap as bs]

theorem cmpPart_swap (a b : List Char) : cmpPart b a = (cmpPart a b).swap :=
  cmpSegs_swap (toSegs a) (toSegs b)

theorem ord3_swap (a b c : Ordering) :
    ord3 a.swap b.swap c.swap = (ord3 a b c).swap := by
  cases a <;> cases b <;> rfl

theorem debCmp_swap (x y : String) : debCmp y x = (debCmp x y).swap := by
  unfold debCmp
  rw [cmpPart_swap (epochSplit x.data).1 (epochSplit y.data).1]
  rw [cmpPart_swap (revSplit (epochSplit x.data).2).1 (revSplit (epochSplit y.data).2).1]
  rw [cmpPart_swap (revSplit (epochSplit x.data).2).2 (revSplit (epochSplit y.data).2).2]
  exact ord3_swap _ _ _

theorem opHolds_lt_gt (o : Ordering) :
    opHolds "<" o = opHolds ">" o.swap ∧ opHolds "<=" o = opHolds ">=" o.swap := by
  cases o <;> exact ⟨rfl, rfl⟩

theorem ord3_of_ne (a b c : Ordering) (h : a ≠ .eq) : ord3 a b c = a := by
  cases a
  · rfl
  · exact absurd rfl h
  · rfl

/-- The epoch tier of a version string: the part before the first colon,
defaulting to "0". -/
def epochStr (v : String) : List Char := (epochSplit v.data).1

theorem char_toNat_lt (c : Char) : c.toNat < 1114112 := by
  have h := c.valid
  rcases h with h | h
  · exact Nat.lt_trans h (by norm_num)
  · exact h.2

theorem isAlpha_ne_tilde {c : Char} (h : c.isAlpha = true) : c ≠ '~' := by
  intro he
  subst he
  exact absurd h (by decide)

theorem charKey_tilde : charKey '~' = 0 := by decide

theorem charKey_pos {d : Char} (h : d ≠ '~') : 0 < charKey d := by
  unfold charKey
  rw [if_neg h]
  by_cases hd : d.isAlpha
  · rw [if_pos hd]
    omega
  · rw [if_neg hd]
    omega

theorem charKey_alpha {c : Char} (h : c.isAlpha = true) : charKey c = 1 + c.toNat := by
  simp [charKey, isAlpha_ne_tilde h, h]

theorem charKey_other {d : Char} (h1 : d.isAlpha = false) (h2 : d ≠ '~') :
    charKey d = 1114113 + d.toNat := by
  simp [charKey, h1, h2]

/-- C1: within corresponding non-digit runs characters compare under a total
order where the tilde sorts lowest (below the end of the run), the end of
the run sorts below every other character, and alphabetic characters sort
by code point and below every non-alphabetic non-tilde character; hence the
strict chain "1~~" < "1~~a" < "1~" < "1" < "1a" under _eval. -/
theorem nondigit_run_order :
    (∀ (c : Char) (r : List Char), c ≠ '~' → cmpCharRun [] (c :: r) = .lt) ∧
    (∀ r : List Char, cmpCharRun ('~' :: r) [] = .lt) ∧
    (∀ d : Char, d ≠ '~' → cmpChar '~' d = .lt) ∧
    (∀ c d : Char, c.isAlpha = true → d.isAlpha = false → d ≠ '~' →
      cmpChar c d = .lt) ∧
    (∀ c d : Char, c.isAlpha = true → d.isAlpha = true →
      cmpChar c d = cmpNat c.toNat d.toNat) ∧
    (_eval "1~~" "<" "1~~a" = true ∧ _eval "1~~a" "<" "1~" = true ∧
      _eval "1~" "<" "1" = true ∧ _eval "1" "<" "1a" = true) := by
  refine ⟨?_, ?_, ?_, ?_, ?_, by decide, by decide, by decide, by decide⟩
  · intro c r h
    simp [cmpCharRun, h]
  · intro r
    simp [cmpCharRun]
  · intro d h
    unfold cmpChar
    rw [charKey_tilde]
    exact cmpNat_lt_of_lt (charKey_pos h)
  · intro c d hc hd hdt
    have hb := char_toNat_lt c
    unfold cmpChar
    rw [charKey_alpha hc, charKey_other hd hdt]
    exact cmpNat_lt_of_lt (by omega)
  · intro c d hc hd
    unfold cmpChar
    rw [charKey_alpha hc, charKey_alpha hd]
    simp [cmpNat, Nat.add_lt_add_iff_left]

/-- C1 witness: the general clauses applied at concrete characters. -/
theorem nondigit_run_order_witness :
    cmpCharRun [] ['a'] = .lt ∧ cmpChar '~' '+' = .lt ∧ cmpChar 'a' '+' = .lt ∧
      cmpChar 'a' 'b' = cmpNat 'a'.toNat 'b'.toNat :=
  ⟨nondigit_run_order.1 'a' [] (by decide),
   nondigit_run_order.2.2.1 '+' (by decide),
   nondigit_run_order.2.2.2.1 'a' '+' (by decide) (by decide) (by decide),
   nondigit_run_order.2.2.2.2.1 'a' 'b' (by decide) (by decide)⟩

/-- C4: for every version string a, _eval a "==" a is true and
_eval a "!=" a is false. -/
theorem eval_eq_refl (a : String) :
    _eval a "==" a = true ∧ _eval a "!=" a = false := by
  unfold _eval
  rw [debCmp_self]
  exact ⟨rfl, rfl⟩

/-- C5: for every pair of version strings, _eval a "<" b equals
_eval b ">" a and _eval a "<=" b equals _eval b ">=" a. -/
theorem eval_antisym (a b : String) :
    _eval a "<" b = _eval b ">" a ∧ _eval a "<=" b = _eval b ">=" a := by
  unfold _eval
  rw [debCmp_swap a b]
  exact opHolds_lt_gt (debCmp a b)

/-- C6: the epoch — the part before the first colon, defaulting to "0" —
is the first ordering key of version comparison, compared with the same
segment comparison as the other tiers; in particular
_eval "1:0" ">" "9999" is true. -/
theorem epoch_first_key :
    (∀ a b : String, cmpPart (epochStr a) (epochStr b) ≠ .eq →
      debCmp a b = cmpPart (epochStr a) (epochStr b)) ∧
    (∀ v : String, v.data.contains ':' = false → epochStr v = ['0']) ∧
    _eval "1:0" ">" "9999" = true := by
  refine ⟨?_, ?_, by decide⟩
  · intro a b h
    unfold epochStr at h
    unfold debCmp
    exact ord3_of_ne _ _ _ h
  · intro v h
    unfold epochStr epochSplit
    rw [if_neg]
    simpa using h

/-- C6 witness: the epoch clauses applied at the concrete pair of the
claim. -/
theorem epoch_first_key_witness :
    debCmp "1:0" "9999" = cmpPart (epochStr "1:0") (epochStr "9999") ∧
      epochStr "9999" = ['0'] :=
  ⟨epoch_first_key.1 "1:0" "9999" (by decide),
   epoch_first_key.2.1 "9999" (by decide)⟩

/-- C2: active_rules keeps exactly the rules all of whose selectors agree
with the profile set, in manifest order; a rule with zero selectors is
always kept; selectors conjoin, so a rule with the selector [!off] is
inactive for profiles on and off together and active for the profile on
alone. -/
theorem active_rules_spec (rules : List Rule) (profiles : List String) :
    (∀ r : Rule, r ∈ active_rules rules profiles ↔
      r ∈ rules ∧ ∀ s ∈ r.2.1, s.1 = profiles.contains s.2) ∧
    (∀ r : Rule, r ∈ rules → r.2.1 = [] → r ∈ active_rules rules profiles) ∧
    (active_rules rules profiles).Sublist rules ∧
    (parse "foo [!off]\n" = .ok [("foo", [(false, "off")], [])] ∧
      active_rules [("foo", [(false, "off")], [])] ["on", "off"] = [] ∧
      active_rules [("foo", [(false, "off")], [])] ["on"] =
        [("foo", [(false, "off")], [])]) := by
  refine ⟨?_, ?_, List.filter_sublist _, rfl, rfl, rfl⟩
  · intro r
    simp [active_rules, List.mem_filter, List.all_eq_true]
  · intro r hr hsel
    simp [active_rules, List.mem_filter, hr, hsel]

/-- C2 witness: the zero-selector clause applied at a concrete rule. -/
theorem active_rules_spec_witness :
    ("foo", [], []) ∈ active_rules [("foo", [], [])] ["default"] :=
  (active_rules_spec [("foo", [], [])] ["default"]).2.1
    ("foo", [], []) (by decide) rfl

theorem checkAccum_spec (pkgVer : String → Option String) :
    ∀ rules : List Rule,
      checkAccum pkgVer rules = (missingPkgs pkgVer rules, badEntries pkgVer rules)
  | [] => rfl
  | r :: rs => by
    cases h : pkgVer r.1 <;>
      simp [checkAccum, missingPkgs, badEntries, h, checkAccum_spec pkgVer rs]

/-- C3: check_rules returns at most one missing error and at most one
badversion error, the missing one first, the missing entry aggregating
every absent package in first-encountered order and the badversion entry
aggregating one (package, constraint-as-string, installed-version) triple
per failing constraint of each installed package. -/
theorem check_rules_spec (pkgVer : String → Option String) (rules : List Rule) :
    check_rules pkgVer rules =
      (if missingPkgs pkgVer rules = [] then []
       else [CheckError.missing (missingPkgs pkgVer rules)]) ++
      (if badEntries pkgVer rules = [] then []
       else [CheckError.badversion (badEntries pkgVer rules)]) ∧
    (check_rules pkgVer rules).length ≤ 2 := by
  have h := checkAccum_spec pkgVer rules
  have h1 : check_rules pkgVer rules =
      (if missingPkgs pkgVer rules = [] then []
       else [CheckError.missing (missingPkgs pkgVer rules)]) ++
      (if badEntries pkgVer rules = [] then []
       else [CheckError.badversion (badEntries pkgVer rules)]) := by
    unfold check_rules
    rw [h]
    by_cases hm : missingPkgs pkgVer rules = [] <;>
      by_cases hb : badEntries pkgVer rules = [] <;>
        simp [hm, hb, List.isEmpty_iff]
  refine ⟨h1, ?_⟩
  rw [h1]
  by_cases hm : missingPkgs pkgVer rules = [] <;>
    by_cases hb : badEntries pkgVer rules = [] <;>
      simp [hm, hb]

/-- C7: the parser maps each manifest line to a package, selector list and
constraint list triple per the grammar, preserving source order. -/
theorem parse_examples :
    parse "foo [!bar baz quux]\n" =
      .ok [("foo", [(false, "bar"), (true, "baz"), (true, "quux")], [])] ∧
    parse "foo <=1,!=2\n" = .ok [("foo", [], [("<=", "1"), ("!=", "2")])] :=
  ⟨rfl, rfl⟩

theorem mapExcept_error {α β : Type} (f : α → Except String β) :
    ∀ (l : List α) (a : α), a ∈ l → (∃ e, f a = .error e) →
      ∃ e2, mapExcept f l = .error e2
  | [], a, ha, _ => absurd ha (List.not_mem_nil a)
  | x :: xs, a, ha, he => by
    rcases he with ⟨e, he⟩
    rcases List.mem_cons.mp ha with h | h
    · subst h
      exact ⟨e, by simp [mapExcept, he]⟩
    · rcases mapExcept_error f xs a h ⟨e, he⟩ with ⟨e2, h2⟩
      cases hx : f x with
      | error e3 => exact ⟨e3, by simp [mapExcept, hx]⟩
      | ok b => exact ⟨e2, by simp [mapExcept, hx, h2]⟩

/-- C8: building the manifest fails with a parse error — producing no rules
at all — whenever some line is malformed: an unrecognised constraint
operator or an unbalanced selector bracket is never silently accepted. -/
theorem parse_error_no_rules :
    (∀ text : String,
      (∃ line ∈ splitBy (fun c => c = '\n') text.data,
        ∃ e, parseLine line = .error e) →
      ∃ e2, parse text = .error e2) ∧
    (∃ e, parse "foo =1\n" = .error e) ∧
    (∃ e, parse "foo [bar\n" = .error e) := by
  refine ⟨?_, ⟨"unknown operator", rfl⟩, ⟨"unbalanced selector bracket", rfl⟩⟩
  intro text h
  obtain ⟨line, hmem, he⟩ := h
  rcases mapExcept_error parseLine _ line hmem he with ⟨e2, h2⟩
  exact ⟨e2, by simp [parse, h2, Except.map]⟩

/-- C8 witness: the general clause applied at a concrete malformed
manifest. -/
theorem parse_error_no_rules_witness :
    ∃ e2, parse "foo ~1\n" = .error e2 :=
  parse_error_no_rules.1 "foo ~1\n"
    ⟨"foo ~1".data, by decide, ⟨"unknown operator", rfl⟩⟩

/-- C9: main returns exit code 1 exactly when the manifest file cannot be
read or when check_rules reports at least one error, and 0 otherwise; in
profile-listing mode no check is performed and the result is 0. -/
theorem main_exit_codes (file : Option String) (profilesFlag : Bool)
    (args : List String) (platformProfiles : List String)
    (pkgVer : String → Option String) :
    (file = none → mainModel file profilesFlag args platformProfiles pkgVer = some 1) ∧
    (∀ content rules, file = some content → parse content = .ok rules →
      profilesFlag = true →
      mainModel file profilesFlag args platformProfiles pkgVer = some 0) ∧
    (∀ content rules, file = some content → parse content = .ok rules →
      profilesFlag = false →
      (mainModel file profilesFlag args platformProfiles pkgVer = some 1 ↔
        check_rules pkgVer (active_rules rules
          ((if args.isEmpty then ["default"] else args) ++ platformProfiles)) ≠ []) ∧
      (mainModel file profilesFlag args platformProfiles pkgVer = some 0 ↔
        check_rules pkgVer (active_rules rules
          ((if args.isEmpty then ["default"] else args) ++ platformProfiles)) = [])) := by
  refine ⟨?_, ?_, ?_⟩
  · intro h
    subst h
    rfl
  · intro content rules hf hp hflag
    subst hf
    subst hflag
    simp [mainModel, hp]
  · intro content rules hf hp hflag
    subst hf
    subst hflag
    by_cases hc : check_rules pkgVer (active_rules rules
        ((if args.isEmpty then ["default"] else args) ++ platformProfiles)) = []
    · simp [mainModel, hp, hc]
    · simp [mainModel, hp, hc, List.isEmpty_iff]

/-- C9 witness: the missing-file clause applied at concrete arguments. -/
theorem main_exit_codes_witness :
    mainModel none false [] [] (fun _ => none) = some 1 :=
  (main_exit_codes none false [] [] (fun _ => none)).1 rfl

/-- C10: the Dpkg platform reports an installed version only when the
status words of the dpkg-query record are exactly "install ok installed";
any other status (for example a removed package whose configuration files
remain) yields no version even though the record carries one. -/
theorem dpkg_version_requires_installed :
    Dpkg.get_pkg_version (some "foo install ok installed 4.0.0-0ubuntu1\n") =
      some "4.0.0-0ubuntu1" ∧
    Dpkg.get_pkg_version (some "foo deinstall ok config-files 4.0.0-0ubuntu1\n") =
      none ∧
    Dpkg.get_pkg_version none = none ∧
    (∀ (out : String) (name s1 s2 s3 v : List Char),
      wsTokens out.data = [name, s1, s2, s3, v] →
      ¬(s1 = "install".data ∧ s2 = "ok".data ∧ s3 = "installed".data) →
      Dpkg.get_pkg_version (some out) = none) := by
  refine ⟨rfl, rfl, rfl, ?_⟩
  intro out name s1 s2 s3 v htok hst
  simp [Dpkg.get_pkg_version, htok, hst]

/-- C10 witness: the general clause applied at the deinstalled record of
the repository tests. -/
theorem dpkg_version_requires_installed_witness :
    Dpkg.get_pkg_version (some "bar deinstall ok config-files 2.0\n") = none :=
  dpkg_version_requires_installed.2.2.2 "bar deinstall ok config-files 2.0\n"
    "bar".data "deinstall".data "ok".data "config-files".data "2.0".data
    (by decide) (by decide)
